import Mathlib

/-!
Verification of the redsocks transparent TCP-to-proxy redirector.

The bootstrap (`src/main.c`) is embedded directly from the source: the
subsystem table walk for configuration sections, the init loop with its
early jump to `shutdown`, the reverse fini loop, the signal dispositions
installed by `s_setup_signals` and the libevent signal registrations, and
the `s_dump_handler` table walk.

The relay core (relay-session state machine, autoproxy decision cache,
protocol negotiators, byte relay pump) is not part of the sources at hand;
those components are modelled from the specification, each such definition
carrying a doc comment that says so.
-/

namespace Redsocks

/-! ## Bootstrap: subsystem table (src/main.c) -/

/-- One entry of the `s_subsystems` table (an `app_subsys`): each hook
pointer may be NULL. `init` carries the return code the hook yields when it
is invoked; `none` means the hook pointer is NULL. The other hooks have no
interesting return value, so only their presence is recorded. -/
structure AppSubsys where
  hasConfSection : Bool
  init : Option Int
  hasFini : Bool
  hasDump : Bool
deriving DecidableEq

/-- Whether the subsystem at index `k` of the table satisfies `P`
(out-of-range indices satisfy nothing). -/
def hookAt (P : AppSubsys → Bool) (subs : List AppSubsys) (k : Nat) : Bool :=
  match subs.get? k with
  | some s => P s
  | none => false

/-- A `FOREACH(ss, s_subsystems)` walk that fires for the subsystems
satisfying `P`, recording the table indices visited, starting at index
`i`. This is the shape of the `parser_add_section` loop (main.c 157-159)
and of `s_dump_handler` (main.c 270-278). -/
def scanTableFrom (P : AppSubsys → Bool) : Nat → List AppSubsys → List Nat
  | _, [] => []
  | i, s :: rest =>
      if P s then i :: scanTableFrom P (i + 1) rest else scanTableFrom P (i + 1) rest

/-- Indices whose `conf_section` is registered with the parser, in table
order (main.c 157-159). -/
def confTrace (subs : List AppSubsys) : List Nat :=
  scanTableFrom (fun s => s.hasConfSection) 0 subs

/-- Indices whose `dump` hook `s_dump_handler` invokes on SIGUSR1, in
table order (main.c 270-278). -/
def dumpTrace (subs : List AppSubsys) : List Nat :=
  scanTableFrom (fun s => s.hasDump) 0 subs

/-- The init loop of `main` (main.c 175-188): walk the table in order,
invoking each non-NULL `init` hook; on the first nonzero return code jump
to `shutdown`. Yields the indices whose init hook was invoked, in order,
and the index of the failing subsystem if any. -/
def initLoopFrom : Nat → List AppSubsys → List Nat × Option Nat
  | _, [] => ([], none)
  | i, s :: rest =>
      match s.init with
      | none => initLoopFrom (i + 1) rest
      | some rc =>
          if rc = 0 then
            let r := initLoopFrom (i + 1) rest
            (i :: r.1, r.2)
          else ([i], some i)

/-- Indices whose init hook `main` invoked, in order. -/
def initTrace (subs : List AppSubsys) : List Nat :=
  (initLoopFrom 0 subs).1

/-- The index of the subsystem whose init hook returned nonzero, if any. -/
def initFailure (subs : List AppSubsys) : Option Nat :=
  (initLoopFrom 0 subs).2

/-- The value of the cursor `ss` when control reaches the `shutdown`
label: on an init failure at index `k` it still points at entry `k`; after
a completed run it points one past the end of the table. -/
def shutdownCursor (subs : List AppSubsys) : Nat :=
  match initFailure subs with
  | some k => k
  | none => subs.length

/-- The fini loop at the `shutdown` label (main.c 244-246):
`for (--ss; ss >= s_subsystems; ss--) if ((*ss)->fini) (*ss)->fini();`
walks from one below the cursor down to index 0. -/
def finiLoopDown : Nat → List AppSubsys → List Nat
  | 0, _ => []
  | n + 1, subs =>
      if hookAt (fun s => s.hasFini) subs n then n :: finiLoopDown n subs
      else finiLoopDown n subs

/-- Indices whose fini hook runs during shutdown, in the order invoked. -/
def finiTrace (subs : List AppSubsys) : List Nat :=
  finiLoopDown (shutdownCursor subs) subs

/-- `main` returns `!error ? EXIT_SUCCESS : EXIT_FAILURE` (main.c 255);
after an init failure `error` holds that hook's nonzero return code. -/
def mainExitSuccess (subs : List AppSubsys) : Bool :=
  (initFailure subs).isNone

/-! ## Bootstrap: signals (src/main.c) -/

/-- SIGINT on Linux. -/
def sigINT : Nat := 2
/-- SIGUSR1 on Linux. -/
def sigUSR1 : Nat := 10
/-- SIGPIPE on Linux. -/
def sigPIPE : Nat := 13
/-- SIGTERM on Linux. -/
def sigTERM : Nat := 15

/-- What the process does on delivery of a signal once `main` has set
everything up. -/
inductive SigAction
  | ignored
  | breakLoop
  | dumpAll
  | defaultAction
deriving DecidableEq

/-- Signal dispositions installed by `main`: `s_setup_signals` sets
SIGPIPE to SIG_IGN (main.c 281-292); `evsignal_new` registers SIGTERM and
SIGINT with `s_terminate` (main.c 85, 201-211) and SIGUSR1 with
`s_dump_handler` (main.c 213-221); everything else keeps its default. -/
def signalDisposition (sig : Nat) : SigAction :=
  if sig = sigTERM ∨ sig = sigINT then SigAction.breakLoop
  else if sig = sigUSR1 then SigAction.dumpAll
  else if sig = sigPIPE then SigAction.ignored
  else SigAction.defaultAction

/-- Effect of a signal delivered while the event loop runs: `s_terminate`
calls `event_base_loopbreak` (main.c 264-268); `s_dump_handler` walks the
table calling every non-NULL dump hook and returns to the loop
(main.c 270-278). Result: whether the loop is still running, and the dump
hooks invoked, in order. -/
def handleSignalInLoop (subs : List AppSubsys) (running : Bool) (sig : Nat) :
    Bool × List Nat :=
  match signalDisposition sig with
  | SigAction.breakLoop => (false, [])
  | SigAction.dumpAll => (running, dumpTrace subs)
  | _ => (running, [])

/-! ## Bootstrap: the event trace of `main` -/

/-- Observable steps of `main` (conftest off, default pidfile, libevent
allocation assumed to succeed). -/
inductive MainEvent
  | addSection (i : Nat)
  | sigpipeIgnored
  | initCall (i : Nat)
  | registerSignal (sig : Nat)
  | dispatch
  | finiCall (i : Nat)
deriving DecidableEq

/-- The sequence of observable steps of `main` (main.c 81-256): parser
sections are registered first (157-159), then `s_setup_signals` ignores
SIGPIPE (170), then the init loop runs (175-188); only when every init
succeeded are the terminator and dumper signal events registered
(201-221) and `event_base_dispatch` entered (225); the shutdown fini loop
runs last (244-246). -/
def mainEvents (subs : List AppSubsys) : List MainEvent :=
  (confTrace subs).map MainEvent.addSection
    ++ [MainEvent.sigpipeIgnored]
    ++ (initTrace subs).map MainEvent.initCall
    ++ (match initFailure subs with
        | some _ => []
        | none =>
            [MainEvent.registerSignal sigTERM, MainEvent.registerSignal sigINT,
             MainEvent.registerSignal sigUSR1, MainEvent.dispatch])
    ++ (finiTrace subs).map MainEvent.finiCall

/-! ## Relay core data model

The relay core is modelled from the specification (§3, §4); each
definition's doc comment names the spec clause it renders. -/

/-- Modelled from the spec: routing policy of the autoproxy decision
cache (§2, §4.3) — `direct` or `proxied`. -/
inductive Policy
  | direct
  | proxied
deriving DecidableEq

/-- Modelled from the spec: the states of the relay-session state machine
(§4.1), `FAILED` terminal and reachable from any non-terminal state. -/
inductive SessState
  | resolving
  | policyLookup
  | connectingUpstream
  | negotiating
  | relaying
  | closing
  | closed
  | failed
deriving DecidableEq

/-- Modelled from the spec: the error taxonomy of §7. -/
inductive SessError
  | resolutionError
  | upstreamUnreachable
  | negotiationError
  | protocolError
  | sessionTimeout
  | relayIOError
  | resourceExhaustion
deriving DecidableEq

/-- Session-level configuration: the idle-relay deadline (§5). -/
structure SessConfig where
  idleTimeout : Nat
deriving DecidableEq

/-- Modelled from the spec: the RelaySession attributes the claims touch
(§3): current state, selected routing policy, how many direct→proxied
fallbacks were performed (§4.1 allows exactly one), the error the session
failed or timed out with, and the timestamp of the last byte transferred
(idle-timeout accounting). -/
structure Session where
  state : SessState
  policy : Policy
  fallbacks : Nat
  err : Option SessError
  lastActivity : Nat
deriving DecidableEq

/-- A freshly accepted session (§4.1 starts in `RESOLVING`; the policy
field is meaningless until `POLICY_LOOKUP` stores one). -/
def initSession : Session :=
  { state := SessState.resolving, policy := Policy.direct, fallbacks := 0,
    err := none, lastActivity := 0 }

/-- Modelled from the spec: the reactor-delivered occurrences a session
reacts to (§4.1, §5): resolver result, cache lookup result, upstream
connect completion or failure, negotiation outcome (`protoErr` marks the
`ProtocolError` sub-kind of §7), bytes moved during relay at a timestamp,
both directions half-closed, relay I/O error, idle-timer firing at a
timestamp, and the final flush of `CLOSING`. -/
inductive SessEvent
  | resolvedOk
  | resolveFail
  | policyResult (p : Policy)
  | connectOk
  | connectFail
  | negoOk
  | negoFail (protoErr : Bool)
  | bytesMoved (t : Nat)
  | bothClosed
  | ioError
  | timerFire (t : Nat)
  | flushed
deriving DecidableEq

/-- A `record_outcome(destination, attempted_policy, success)` call the
session issues to the decision cache (§4.1, §4.3). -/
inductive CacheAction
  | record (attempted : Policy) (success : Bool)
deriving DecidableEq

/-- Active states: every state from which the idle timer forces `CLOSING`
(§4.1); the terminal `CLOSED` and `FAILED` states are not active. -/
def isActive (st : SessState) : Bool :=
  match st with
  | SessState.closed => false
  | SessState.failed => false
  | _ => true

/-- Modelled from the spec: one transition of the relay-session state
machine (§4.1). `RESOLVING` moves to `POLICY_LOOKUP` or fails with
`ResolutionError`; `POLICY_LOOKUP` stores the cache's policy and moves to
`CONNECTING_UPSTREAM`; a connect failure while `direct` records a cache
failure and retries once through the proxy with policy forced to
`proxied`, while a connect failure under `proxied` fails the session with
`UpstreamUnreachable`; `NEGOTIATING` (entered only under `proxied`) moves
to `RELAYING` on success and fails with `ProtocolError`/`NegotiationError`
recording a cache failure otherwise; bytes moved during `RELAYING` reset
the idle timestamp; a clean close reports success to the cache and moves
to `CLOSING`; a relay I/O error fails the session; the idle timer fires
once `idleTimeout` has elapsed since the last byte and forces `CLOSING`
from any active state signalling `SessionTimeout` (§4.1 last paragraph). -/
def sessStep (cfg : SessConfig) (s : Session) (e : SessEvent) :
    Session × List CacheAction :=
  match e with
  | SessEvent.resolvedOk =>
      if s.state = SessState.resolving then
        ({ s with state := SessState.policyLookup }, [])
      else (s, [])
  | SessEvent.resolveFail =>
      if s.state = SessState.resolving then
        ({ s with state := SessState.failed, err := some SessError.resolutionError }, [])
      else (s, [])
  | SessEvent.policyResult p =>
      if s.state = SessState.policyLookup then
        ({ s with state := SessState.connectingUpstream, policy := p }, [])
      else (s, [])
  | SessEvent.connectOk =>
      if s.state = SessState.connectingUpstream then
        if s.policy = Policy.proxied then ({ s with state := SessState.negotiating }, [])
        else ({ s with state := SessState.relaying }, [])
      else (s, [])
  | SessEvent.connectFail =>
      if s.state = SessState.connectingUpstream then
        if s.policy = Policy.direct then
          ({ s with policy := Policy.proxied, fallbacks := s.fallbacks + 1 },
           [CacheAction.record Policy.direct false])
        else
          ({ s with state := SessState.failed, err := some SessError.upstreamUnreachable }, [])
      else (s, [])
  | SessEvent.negoOk =>
      if s.state = SessState.negotiating then
        ({ s with state := SessState.relaying }, [])
      else (s, [])
  | SessEvent.negoFail pe =>
      if s.state = SessState.negotiating then
        ({ s with state := SessState.failed,
                  err := some (if pe then SessError.protocolError else SessError.negotiationError) },
         [CacheAction.record s.policy false])
      else (s, [])
  | SessEvent.bytesMoved t =>
      if s.state = SessState.relaying then ({ s with lastActivity := t }, [])
      else (s, [])
  | SessEvent.bothClosed =>
      if s.state = SessState.relaying then
        ({ s with state := SessState.closing }, [CacheAction.record s.policy true])
      else (s, [])
  | SessEvent.ioError =>
      if s.state = SessState.relaying then
        ({ s with state := SessState.failed, err := some SessError.relayIOError }, [])
      else (s, [])
  | SessEvent.timerFire t =>
      if isActive s.state ∧ cfg.idleTimeout ≤ t - s.lastActivity then
        ({ s with state := SessState.closing, err := some SessError.sessionTimeout }, [])
      else (s, [])
  | SessEvent.flushed =>
      if s.state = SessState.closing then ({ s with state := SessState.closed }, [])
      else (s, [])

/-- Run a session through a sequence of reactor events. -/
def runSession (cfg : SessConfig) (s : Session) : List SessEvent → Session
  | [] => s
  | e :: es => runSession cfg (sessStep cfg s e).1 es

/-- The states a session passes through (starting state included) while
consuming a sequence of reactor events. -/
def sessStates (cfg : SessConfig) (s : Session) : List SessEvent → List SessState
  | [] => [s.state]
  | e :: es => s.state :: sessStates cfg (sessStep cfg s e).1 es

/-- The fallback bookkeeping invariant of a session: either no
direct→proxied fallback happened yet, or exactly one did — and then the
policy is pinned to `proxied` and the session is past the states that
could select a policy again (§4.1: the one-shot retry forces `proxied`). -/
def SessInv (s : Session) : Prop :=
  s.fallbacks = 0 ∨
    (s.fallbacks = 1 ∧ s.policy = Policy.proxied ∧
     s.state ≠ SessState.resolving ∧ s.state ≠ SessState.policyLookup)

/-! ## Reactor with sessions -/

/-- Modelled from the spec: the single-threaded reactor (§5) as the claims
see it — the set of live sessions it drives, keyed by a session id, and
whether the event loop is still running. -/
structure Reactor where
  sessions : List (Nat × Session)
  alive : Bool

/-- Modelled from the spec: advance the one session with id `sid` by one
event; every other session is untouched and the loop keeps running (§5,
§7 propagation policy). -/
def reactorStep (cfg : SessConfig) (r : Reactor) (sid : Nat) (e : SessEvent) : Reactor :=
  { r with sessions :=
      r.sessions.map (fun p => if p.1 = sid then (p.1, (sessStep cfg p.2 e).1) else p) }

/-- Modelled from the spec: §7 propagation policy — a session-level error
marks exactly that session `FAILED` with the error recorded; the reactor
and all other sessions continue undisturbed. -/
def failSession (r : Reactor) (sid : Nat) (e : SessError) : Reactor :=
  { r with sessions :=
      r.sessions.map (fun p =>
        if p.1 = sid then (p.1, { p.2 with state := SessState.failed, err := some e }) else p) }

/-! ## Autoproxy decision cache (§4.3) -/

/-- Configuration surface of the decision cache (§6): failure threshold,
sliding window, and the two policy TTLs. -/
structure CacheConfig where
  threshold : Nat
  window : Nat
  directTTL : Nat
  proxiedTTL : Nat
deriving DecidableEq

/-- Modelled from the spec: a DecisionCacheEntry (§3) — policy, failure
counter, start of the current sliding window of failures, last-decision
timestamp, and expiry time. -/
structure CacheEntry where
  policy : Policy
  failCount : Nat
  windowStart : Nat
  stamp : Nat
  expiry : Nat
deriving DecidableEq

/-- The cache: destination identity (an abstract numeric key, §3) to
entry. -/
def Cache : Type := List (Nat × CacheEntry)

/-- The entry stored for destination `d`, if any. -/
def lookupEntry (c : Cache) (d : Nat) : Option CacheEntry :=
  (c.find? (fun p => p.1 == d)).map Prod.snd

/-- Store `e` as the entry for destination `d`. -/
def setEntry (c : Cache) (d : Nat) (e : CacheEntry) : Cache :=
  (d, e) :: c.filter (fun p => p.1 != d)

/-- Modelled from the spec: `lookup(destination) → policy` (§4.3) —
the stored policy if an unexpired entry exists, else the default `direct`
sentinel meaning no opinion yet. -/
def cacheLookup (c : Cache) (d : Nat) (now : Nat) : Policy :=
  match lookupEntry c d with
  | some e => if now < e.expiry then e.policy else Policy.direct
  | none => Policy.direct

/-- Modelled from the spec: `record_outcome(destination, attempted_policy,
success)` (§4.3). On failure while the attempted policy was `direct` the
failure counter is incremented (failures older than the sliding window no
longer count: the counter restarts at 1 when the window has lapsed); once
the counter crosses the configured threshold within the window, the stored
policy flips to `proxied` and the expiry resets to the proxied-confirm
TTL. On success while `direct`, the counter resets and `direct` is
reconfirmed with its own TTL. The spec prescribes no mutation for
`proxied` attempts. -/
def recordOutcome (cfg : CacheConfig) (c : Cache) (d : Nat) (attempted : Policy)
    (success : Bool) (now : Nat) : Cache :=
  match attempted with
  | Policy.proxied => c
  | Policy.direct =>
      if success then
        setEntry c d
          { policy := Policy.direct, failCount := 0, windowStart := now,
            stamp := now, expiry := now + cfg.directTTL }
      else
        let old := (lookupEntry c d).getD
          { policy := Policy.direct, failCount := 0, windowStart := now,
            stamp := now, expiry := now }
        let inWindow : Bool := now ≤ old.windowStart + cfg.window
        let cnt := if inWindow then old.failCount + 1 else 1
        let ws := if inWindow then old.windowStart else now
        if cfg.threshold ≤ cnt then
          setEntry c d
            { policy := Policy.proxied, failCount := 0, windowStart := ws,
              stamp := now, expiry := now + cfg.proxiedTTL }
        else
          setEntry c d { old with failCount := cnt, windowStart := ws, stamp := now }

/-! ## SOCKS5 protocol negotiator (§4.2, §6) -/

/-- Outcome of feeding received bytes to a negotiator (§4.2):
`MoreBytesNeeded`, `Success`, or `ProtocolError`. -/
inductive NegoResult
  | moreBytes
  | success
  | protoError
deriving DecidableEq

/-- The two round trips of SOCKS5 (§4.2): method selection reply, then
CONNECT reply. -/
inductive S5Phase
  | methodSelect
  | connectReply
deriving DecidableEq

/-- Modelled from the spec: the SOCKS5 negotiation transcript (§3, §4.2) —
which reply is awaited and the bytes received so far and not yet consumed
(partial reads are retained across suspension points). -/
structure Socks5Nego where
  phase : S5Phase
  buf : List Nat
deriving DecidableEq

/-- Negotiator state right after `begin` emitted the method-negotiation
request `05 01 00` (§8 scenario). -/
def socks5Start : Socks5Nego :=
  { phase := S5Phase.methodSelect, buf := [] }

/-- Length of a full SOCKS5 CONNECT reply given its first bytes: 4 header
bytes, then an address per RFC1928 ATYP (IPv4=1 → 4 bytes, domain=3 →
1+len bytes, IPv6=4 → 16 bytes), then a 2-byte port (§6); `none` for an
unknown ATYP. -/
def s5ReplyLen (buf : List Nat) : Option Nat :=
  match buf.getD 3 0 with
  | 1 => some 10
  | 3 => some (7 + buf.getD 4 0)
  | 4 => some 22
  | _ => none

/-- Modelled from the spec: the SOCKS5 negotiator's `on_bytes` (§4.2).
Received bytes extend the transcript; a partial frame yields
`MoreBytesNeeded` (resumable). A version byte ≠ 0x05 in either reply
yields `ProtocolError`; in the method reply, method 0xFF (no acceptable
method) yields `ProtocolError`; in the CONNECT reply, a non-zero reply
code or an unknown address type yields `ProtocolError`; a complete
zero-status CONNECT reply yields `Success`. -/
def socks5OnBytes (st : Socks5Nego) (bytes : List Nat) : Socks5Nego × NegoResult :=
  let buf := st.buf ++ bytes
  match buf.head? with
  | none => ({ st with buf := buf }, NegoResult.moreBytes)
  | some v =>
      if v ≠ 5 then ({ st with buf := buf }, NegoResult.protoError)
      else
        match st.phase with
        | S5Phase.methodSelect =>
            if buf.length < 2 then ({ st with buf := buf }, NegoResult.moreBytes)
            else if buf.getD 1 0 = 0xFF then ({ st with buf := buf }, NegoResult.protoError)
            else ({ phase := S5Phase.connectReply, buf := buf.drop 2 }, NegoResult.moreBytes)
        | S5Phase.connectReply =>
            if buf.length < 5 then ({ st with buf := buf }, NegoResult.moreBytes)
            else if buf.getD 1 0 ≠ 0 then ({ st with buf := buf }, NegoResult.protoError)
            else
              match s5ReplyLen buf with
              | none => ({ st with buf := buf }, NegoResult.protoError)
              | some n =>
                  if buf.length < n then ({ st with buf := buf }, NegoResult.moreBytes)
                  else ({ st with buf := buf.drop n }, NegoResult.success)

/-! ## Byte relay pump (§4.4) -/

/-- Pump configuration: the buffer bound and the low watermark below which
a suspended read side resumes (§3 invariants, §4.4). -/
structure FlowConfig where
  capacity : Nat
  lowWatermark : Nat
deriving DecidableEq

/-- Modelled from the spec: one unidirectional flow of the Byte Relay Pump
(§4.4) — the bytes still queued at the source socket, the bounded relay
buffer, the bytes already written to the destination, and whether reading
from the source is currently enabled (false = suspended by
backpressure). -/
structure Flow where
  src : List Nat
  buf : List Nat
  delivered : List Nat
  readOn : Bool
deriving DecidableEq

/-- Readiness events the reactor delivers to one flow: up to `n` bytes
readable from the source, or room to write up to `n` bytes to the
destination. -/
inductive FlowEvent
  | readable (n : Nat)
  | writable (n : Nat)
deriving DecidableEq

/-- Modelled from the spec: one step of a single pump direction (§4.4).
On readability, when reading is enabled, move as many source bytes into
the buffer as its bound allows; reading suspends exactly when the buffer
fills (backpressure — a suspended side consumes nothing, so no byte is
dropped). On writability, move buffered bytes, oldest first, to the
destination; a suspended read side resumes once the buffer has drained
below the low watermark. -/
def flowStep (cfg : FlowConfig) (f : Flow) (e : FlowEvent) : Flow :=
  match e with
  | FlowEvent.readable n =>
      if f.readOn then
        let k := min n (cfg.capacity - f.buf.length)
        let buf := f.buf ++ f.src.take k
        { f with src := f.src.drop k, buf := buf,
                 readOn := decide (buf.length < cfg.capacity) }
      else f
  | FlowEvent.writable n =>
      let k := min n f.buf.length
      let buf := f.buf.drop k
      { f with buf := buf, delivered := f.delivered ++ f.buf.take k,
               readOn := f.readOn || decide (buf.length < cfg.lowWatermark) }

/-- Run one flow through a sequence of readiness events. -/
def runFlow (cfg : FlowConfig) (f : Flow) : List FlowEvent → Flow
  | [] => f
  | e :: es => runFlow cfg (flowStep cfg f e) es

/-- Modelled from the spec: the Byte Relay Pump of one session — two
independent unidirectional flows (§4.4). -/
structure Pump where
  c2u : Flow
  u2c : Flow
deriving DecidableEq

/-- A readiness event touches exactly one of the two flows. -/
inductive PumpEvent
  | onC2U (e : FlowEvent)
  | onU2C (e : FlowEvent)
deriving DecidableEq

/-- Modelled from the spec: a pump step advances the one flow the event
belongs to; the two directions are independent (§4.4). -/
def pumpStep (cfg : FlowConfig) (p : Pump) (e : PumpEvent) : Pump :=
  match e with
  | PumpEvent.onC2U e => { p with c2u := flowStep cfg p.c2u e }
  | PumpEvent.onU2C e => { p with u2c := flowStep cfg p.u2c e }

/-- Run the pump through a sequence of readiness events. -/
def runPump (cfg : FlowConfig) (p : Pump) : List PumpEvent → Pump
  | [] => p
  | e :: es => runPump cfg (pumpStep cfg p e) es

/-- The pump at the start of `RELAYING`: `a` is the byte sequence the
client will send, `b` the byte sequence upstream will send; both buffers
empty, both read sides enabled. -/
def initPump (a b : List Nat) : Pump :=
  { c2u := { src := a, buf := [], delivered := [], readOn := true },
    u2c := { src := b, buf := [], delivered := [], readOn := true } }

/-! ## Lemmas about the bootstrap table walks -/

theorem hookAt_nil (P : AppSubsys → Bool) (j : Nat) : hookAt P [] j = false := rfl

theorem hookAt_cons_zero (P : AppSubsys → Bool) (s : AppSubsys) (rest : List AppSubsys) :
    hookAt P (s :: rest) 0 = P s := rfl

theorem hookAt_cons_succ (P : AppSubsys → Bool) (s : AppSubsys) (rest : List AppSubsys)
    (j : Nat) : hookAt P (s :: rest) (j + 1) = hookAt P rest j := rfl

theorem scanTableFrom_lb (P : AppSubsys → Bool) :
    ∀ (subs : List AppSubsys) (i k : Nat), k ∈ scanTableFrom P i subs → i ≤ k := by
  intro subs
  induction subs with
  | nil => intro i k h; simp [scanTableFrom] at h
  | cons s rest ih =>
      intro i k h
      by_cases hp : P s
      · simp only [scanTableFrom, if_pos hp, List.mem_cons] at h
        rcases h with rfl | h
        · exact Nat.le_refl k
        · have := ih (i + 1) k h; omega
      · simp only [scanTableFrom, if_neg hp] at h
        have := ih (i + 1) k h; omega

theorem scanTableFrom_sorted (P : AppSubsys → Bool) :
    ∀ (subs : List AppSubsys) (i : Nat), (scanTableFrom P i subs).Pairwise (· < ·) := by
  intro subs
  induction subs with
  | nil => intro i; simp [scanTableFrom]
  | cons s rest ih =>
      intro i
      by_cases hp : P s
      · simp only [scanTableFrom, if_pos hp]
        refine List.pairwise_cons.mpr ⟨fun k hk => ?_, ih (i + 1)⟩
        have := scanTableFrom_lb P rest (i + 1) k hk; omega
      · simp only [scanTableFrom, if_neg hp]
        exact ih (i + 1)

theorem scanTableFrom_mem (P : AppSubsys → Bool) :
    ∀ (subs : List AppSubsys) (i k : Nat),
      k ∈ scanTableFrom P i subs ↔ ∃ j, hookAt P subs j = true ∧ k = i + j := by
  intro subs
  induction subs with
  | nil =>
      intro i k
      simp [scanTableFrom, hookAt_nil]
  | cons s rest ih =>
      intro i k
      constructor
      · intro h
        by_cases hp : P s
        · simp only [scanTableFrom, if_pos hp, List.mem_cons] at h
          rcases h with rfl | h
          · exact ⟨0, by simp [hookAt_cons_zero, hp]⟩
          · obtain ⟨j, hj, rfl⟩ := (ih (i + 1) k).mp h
            exact ⟨j + 1, by simp [hookAt_cons_succ, hj], by omega⟩
        · simp only [scanTableFrom, if_neg hp] at h
          obtain ⟨j, hj, rfl⟩ := (ih (i + 1) _).mp h
          exact ⟨j + 1, by simp [hookAt_cons_succ, hj], by omega⟩
      · rintro ⟨j, hj, rfl⟩
        cases j with
        | zero =>
            rw [hookAt_cons_zero] at hj
            simp [scanTableFrom, hj]
        | succ j =>
            rw [hookAt_cons_succ] at hj
            have hmem : i + 1 + j ∈ scanTableFrom P (i + 1) rest :=
              (ih (i + 1) (i + 1 + j)).mpr ⟨j, hj, rfl⟩
            have : i + (j + 1) = i + 1 + j := by omega
            rw [this]
            by_cases hp : P s
            · simp only [scanTableFrom, if_pos hp, List.mem_cons]
              exact Or.inr hmem
            · simpa only [scanTableFrom, if_neg hp] using hmem

theorem initLoopFrom_ok :
    ∀ (subs : List AppSubsys) (i : Nat),
      (∀ s ∈ subs, ∀ rc : Int, s.init = some rc → rc = 0) →
      initLoopFrom i subs = (scanTableFrom (fun s => s.init.isSome) i subs, none) := by
  intro subs
  induction subs with
  | nil => intro i _; rfl
  | cons s rest ih =>
      intro i h
      have hrest : ∀ s ∈ rest, ∀ rc : Int, s.init = some rc → rc = 0 :=
        fun s' hs' => h s' (List.mem_cons_of_mem _ hs')
      cases hi : s.init with
      | none =>
          simp only [initLoopFrom, hi, scanTableFrom, Option.isSome_none,
            Bool.false_eq_true, if_neg]
          exact ih (i + 1) hrest
      | some rc =>
          have hrc : rc = 0 := h s (List.mem_cons_self _ _) rc hi
          simp only [initLoopFrom, hi, hrc, if_pos, scanTableFrom, Option.isSome_some,
            if_true, ih (i + 1) hrest]

theorem initLoopFrom_fail :
    ∀ (subs : List AppSubsys) (i k : Nat) (sk : AppSubsys) (rc : Int),
      subs.get? k = some sk → sk.init = some rc → rc ≠ 0 →
      (∀ s ∈ subs.take k, ∀ r : Int, s.init = some r → r = 0) →
      (initLoopFrom i subs).2 = some (i + k) := by
  intro subs
  induction subs with
  | nil => intro i k sk rc hget; simp at hget
  | cons s rest ih =>
      intro i k sk rc hget hinit hrc hpre
      cases k with
      | zero =>
          rw [List.get?_cons_zero, Option.some.injEq] at hget
          subst hget
          simp [initLoopFrom, hinit, hrc]
      | succ k =>
          rw [List.get?_cons_succ] at hget
          have hpre' : ∀ s' ∈ rest.take k, ∀ r : Int, s'.init = some r → r = 0 := by
            intro s' hs' r hr
            exact hpre s' (by simp [List.take_cons]; exact Or.inr hs') r hr
          have htail := ih (i + 1) k sk rc hget hinit hrc hpre'
          cases hi : s.init with
          | none =>
              simp only [initLoopFrom, hi, htail, Option.some.injEq]
              omega
          | some r =>
              have hr : r = 0 := by
                refine hpre s ?_ r hi
                simp [List.take_cons]
              simp only [initLoopFrom, hi, hr, if_pos, htail, Option.some.injEq]
              omega

theorem finiLoopDown_mem :
    ∀ (n : Nat) (subs : List AppSubsys) (j : Nat),
      j ∈ finiLoopDown n subs ↔ j < n ∧ hookAt (fun s => s.hasFini) subs j = true := by
  intro n
  induction n with
  | zero => intro subs j; simp [finiLoopDown]
  | succ n ih =>
      intro subs j
      by_cases hp : hookAt (fun s => s.hasFini) subs n
      · simp only [finiLoopDown, if_pos hp, List.mem_cons, ih]
        constructor
        · rintro (rfl | ⟨hj, hh⟩)
          · exact ⟨Nat.lt_succ_self _, hp⟩
          · exact ⟨Nat.lt_succ_of_lt hj, hh⟩
        · rintro ⟨hj, hh⟩
          rcases Nat.lt_succ_iff_lt_or_eq.mp hj with hj' | rfl
          · exact Or.inr ⟨hj', hh⟩
          · exact Or.inl rfl
      · simp only [finiLoopDown, if_neg hp, ih]
        constructor
        · rintro ⟨hj, hh⟩
          exact ⟨Nat.lt_succ_of_lt hj, hh⟩
        · rintro ⟨hj, hh⟩
          rcases Nat.lt_succ_iff_lt_or_eq.mp hj with hj' | rfl
          · exact ⟨hj', hh⟩
          · exact absurd hh (by simpa using hp)

theorem finiLoopDown_sorted :
    ∀ (n : Nat) (subs : List AppSubsys), (finiLoopDown n subs).Pairwise (· > ·) := by
  intro n
  induction n with
  | zero => intro subs; simp [finiLoopDown]
  | succ n ih =>
      intro subs
      by_cases hp : hookAt (fun s => s.hasFini) subs n
      · simp only [finiLoopDown, if_pos hp]
        refine List.pairwise_cons.mpr ⟨fun j hj => ?_, ih subs⟩
        exact ((finiLoopDown_mem n subs j).mp hj).1
      · simp only [finiLoopDown, if_neg hp]
        exact ih subs

/-! ## C7: lifecycle hook ordering -/

/-- Claim C7: the bootstrap invokes each pluggable subsystem's lifecycle
hooks in the declaration order of the subsystem table for configuration
and init, and the fini hooks in the reverse of that order during shutdown;
a subsystem lacking a given optional hook is skipped without error: when
every present init hook succeeds, no failure is reported, the conf/init
traces list exactly the indices providing the hook in strictly increasing
table order, and the fini trace lists exactly the indices providing a fini
hook in strictly decreasing order. -/
theorem main_lifecycle_order (subs : List AppSubsys)
    (h : ∀ s ∈ subs, ∀ rc : Int, s.init = some rc → rc = 0) :
    initFailure subs = none
    ∧ mainExitSuccess subs = true
    ∧ (∀ k, k ∈ confTrace subs ↔ hookAt (fun s => s.hasConfSection) subs k = true)
    ∧ (confTrace subs).Pairwise (· < ·)
    ∧ (∀ k, k ∈ initTrace subs ↔ hookAt (fun s => s.init.isSome) subs k = true)
    ∧ (initTrace subs).Pairwise (· < ·)
    ∧ (∀ k, k ∈ finiTrace subs ↔ k < subs.length ∧ hookAt (fun s => s.hasFini) subs k = true)
    ∧ (finiTrace subs).Pairwise (· > ·)
  := by
  have hok := initLoopFrom_ok subs 0 h
  have hfail : initFailure subs = none := by
    simp [initFailure, hok]
  have hcursor : shutdownCursor subs = subs.length := by
    simp [shutdownCursor, hfail]
  refine ⟨hfail, by simp [mainExitSuccess, hfail], ?_, ?_, ?_, ?_, ?_, ?_⟩
  · intro k
    rw [confTrace, scanTableFrom_mem]
    constructor
    · rintro ⟨j, hj, rfl⟩; simpa using hj
    · intro hk; exact ⟨k, hk, by omega⟩
  · exact scanTableFrom_sorted _ subs 0
  · intro k
    rw [initTrace, hok]
    rw [scanTableFrom_mem]
    constructor
    · rintro ⟨j, hj, rfl⟩; simpa using hj
    · intro hk; exact ⟨k, hk, by omega⟩
  · rw [initTrace, hok]
    exact scanTableFrom_sorted _ subs 0
  · intro k
    rw [finiTrace, hcursor, finiLoopDown_mem]
  · rw [finiTrace]
    exact finiLoopDown_sorted _ subs

/-- Witness for C7 at a concrete two-entry table: first subsystem has conf
and init and fini, second only a dump hook. -/
theorem main_lifecycle_order_witness :
    initFailure
        [{ hasConfSection := true, init := some 0, hasFini := true, hasDump := false },
         { hasConfSection := false, init := none, hasFini := false, hasDump := true }]
      = none
    ∧ mainExitSuccess
        [{ hasConfSection := true, init := some 0, hasFini := true, hasDump := false },
         { hasConfSection := false, init := none, hasFini := false, hasDump := true }]
      = true := by
  have h := main_lifecycle_order
    [{ hasConfSection := true, init := some 0, hasFini := true, hasDump := false },
     { hasConfSection := false, init := none, hasFini := false, hasDump := true }]
    (by
      intro s hs rc hrc
      rcases List.mem_cons.mp hs with rfl | hs'
      · simpa using hrc.symm
      · rcases List.mem_cons.mp hs' with rfl | hs''
        · simp at hrc
        · simp at hs'')
  exact ⟨h.1, h.2.1⟩

/-! ## C9: cleanup after a failing init hook -/

/-- Claim C9: when the init hook of the subsystem at index `k` returns a
nonzero code (all earlier init hooks having succeeded), `main` runs the
fini hooks of exactly the subsystems preceding index `k`, in reverse table
order — the failing subsystem's own fini hook is not invoked — and the
process exits with a failure status. -/
theorem main_init_failure_cleanup (subs : List AppSubsys) (k : Nat) (sk : AppSubsys)
    (rc : Int) (hget : subs.get? k = some sk) (hinit : sk.init = some rc) (hrc : rc ≠ 0)
    (hpre : ∀ s ∈ subs.take k, ∀ r : Int, s.init = some r → r = 0) :
    initFailure subs = some k
    ∧ mainExitSuccess subs = false
    ∧ (∀ j, j ∈ finiTrace subs ↔ j < k ∧ hookAt (fun s => s.hasFini) subs j = true)
    ∧ k ∉ finiTrace subs
    ∧ (finiTrace subs).Pairwise (· > ·)
  := by
  have hfail : initFailure subs = some k := by
    have := initLoopFrom_fail subs 0 k sk rc hget hinit hrc hpre
    simpa [initFailure] using this
  have hcursor : shutdownCursor subs = k := by
    simp [shutdownCursor, hfail]
  refine ⟨hfail, by simp [mainExitSuccess, hfail], ?_, ?_, ?_⟩
  · intro j
    rw [finiTrace, hcursor, finiLoopDown_mem]
  · intro hk
    rw [finiTrace, hcursor, finiLoopDown_mem] at hk
    omega
  · rw [finiTrace]
    exact finiLoopDown_sorted _ subs

/-- Witness for C9: a three-entry table whose second init hook returns 1;
only the first subsystem's fini runs and the exit status is failure. -/
theorem main_init_failure_cleanup_witness :
    initFailure
        [{ hasConfSection := false, init := some 0, hasFini := true, hasDump := false },
         { hasConfSection := false, init := some 1, hasFini := true, hasDump := false },
         { hasConfSection := false, init := none, hasFini := true, hasDump := false }]
      = some 1
    ∧ mainExitSuccess
        [{ hasConfSection := false, init := some 0, hasFini := true, hasDump := false },
         { hasConfSection := false, init := some 1, hasFini := true, hasDump := false },
         { hasConfSection := false, init := none, hasFini := true, hasDump := false }]
      = false
    ∧ 1 ∉ finiTrace
        [{ hasConfSection := false, init := some 0, hasFini := true, hasDump := false },
         { hasConfSection := false, init := some 1, hasFini := true, hasDump := false },
         { hasConfSection := false, init := none, hasFini := true, hasDump := false }] := by
  have h := main_init_failure_cleanup
    [{ hasConfSection := false, init := some 0, hasFini := true, hasDump := false },
     { hasConfSection := false, init := some 1, hasFini := true, hasDump := false },
     { hasConfSection := false, init := none, hasFini := true, hasDump := false }]
    1 { hasConfSection := false, init := some 1, hasFini := true, hasDump := false } 1
    rfl rfl (by decide)
    (by
      intro s hs r hr
      rcases List.mem_cons.mp hs with rfl | hs'
      · simpa using hr.symm
      · simp [List.take] at hs')
  exact ⟨h.1, h.2.1, h.2.2.2.1⟩

/-! ## C10: SIGUSR1 dumps, only SIGTERM/SIGINT break the loop -/

/-- Claim C10: while the event loop runs, SIGUSR1 invokes the dump hook of
every subsystem that provides one, in the declaration order of the table,
without breaking the loop; a signal delivered to the loop breaks it
exactly when it is SIGTERM or SIGINT. -/
theorem sigusr1_dump_order (subs : List AppSubsys) :
    (handleSignalInLoop subs true sigUSR1).1 = true
    ∧ (handleSignalInLoop subs true sigUSR1).2 = dumpTrace subs
    ∧ (∀ k, k ∈ dumpTrace subs ↔ hookAt (fun s => s.hasDump) subs k = true)
    ∧ (dumpTrace subs).Pairwise (· < ·)
    ∧ (∀ sig, (handleSignalInLoop subs true sig).1 = false ↔ sig = sigTERM ∨ sig = sigINT)
  := by
  refine ⟨by simp [handleSignalInLoop, signalDisposition, sigUSR1, sigTERM, sigINT],
    by simp [handleSignalInLoop, signalDisposition, sigUSR1, sigTERM, sigINT],
    ?_, scanTableFrom_sorted _ subs 0, ?_⟩
  · intro k
    rw [dumpTrace, scanTableFrom_mem]
    constructor
    · rintro ⟨j, hj, rfl⟩; simpa using hj
    · intro hk; exact ⟨k, hk, by omega⟩
  · intro sig
    by_cases h1 : sig = sigTERM ∨ sig = sigINT
    · simp [handleSignalInLoop, signalDisposition, h1]
    · by_cases h2 : sig = sigUSR1
      · subst h2
        simp [handleSignalInLoop, signalDisposition, sigUSR1, sigTERM, sigINT]
      · by_cases h3 : sig = sigPIPE
        · subst h3
          simp [handleSignalInLoop, signalDisposition, sigPIPE, sigUSR1, sigTERM, sigINT]
        · simp [handleSignalInLoop, signalDisposition, h1, h2, h3]

/-- Witness for C10 at a concrete table: SIGUSR1 leaves the loop running
and dumps exactly the subsystems providing a dump hook, in order; SIGPIPE
does not break the loop. -/
theorem sigusr1_dump_order_witness :
    (handleSignalInLoop
        [{ hasConfSection := false, init := none, hasFini := false, hasDump := true },
         { hasConfSection := false, init := none, hasFini := false, hasDump := false },
         { hasConfSection := false, init := none, hasFini := false, hasDump := true }]
        true sigUSR1).1 = true
    ∧ ¬ ((handleSignalInLoop
        [{ hasConfSection := false, init := none, hasFini := false, hasDump := true },
         { hasConfSection := false, init := none, hasFini := false, hasDump := false },
         { hasConfSection := false, init := none, hasFini := false, hasDump := true }]
        true sigPIPE).1 = false) := by
  constructor
  · exact (sigusr1_dump_order _).1
  · intro hcontra
    have := ((sigusr1_dump_order
      [{ hasConfSection := false, init := none, hasFini := false, hasDump := true },
       { hasConfSection := false, init := none, hasFini := false, hasDump := false },
       { hasConfSection := false, init := none, hasFini := false, hasDump := true }]).2.2.2.2
      sigPIPE).mp hcontra
    simp [sigPIPE, sigTERM, sigINT] at this

/-! ## C8: session errors are session-local; SIGPIPE ignored before the loop -/

/-- Claim C8: every session-level error terminates exactly one
RelaySession — the reactor keeps running and every other session is
untouched — and `main` ignores SIGPIPE before entering the event loop:
in the trace of `main`, every `dispatch` occurrence comes strictly after
the `sigpipeIgnored` step, and SIGPIPE's installed disposition is
SIG_IGN, so a write to a closed peer surfaces as a socket error
(`RelayIOError`) rather than terminating the process. -/
theorem session_errors_process_safe (subs : List AppSubsys) (r : Reactor) (sid : Nat)
    (e : SessError) :
    signalDisposition sigPIPE = SigAction.ignored
    ∧ (∀ l1 l2, mainEvents subs = l1 ++ MainEvent.dispatch :: l2 →
        MainEvent.sigpipeIgnored ∈ l1)
    ∧ (failSession r sid e).alive = r.alive
    ∧ (failSession r sid e).sessions.length = r.sessions.length
    ∧ (∀ p ∈ r.sessions, p.1 ≠ sid → p ∈ (failSession r sid e).sessions)
    ∧ (∀ p ∈ (failSession r sid e).sessions, p.1 = sid →
        p.2.state = SessState.failed ∧ p.2.err = some e)
  := by
  refine ⟨by decide, ?_, rfl, by simp [failSession], ?_, ?_⟩
  · intro l1 l2 hsplit
    have hshape : mainEvents subs
        = (confTrace subs).map MainEvent.addSection
          ++ (MainEvent.sigpipeIgnored
              :: ((initTrace subs).map MainEvent.initCall
                  ++ ((match initFailure subs with
                      | some _ => []
                      | none =>
                          [MainEvent.registerSignal sigTERM, MainEvent.registerSignal sigINT,
                           MainEvent.registerSignal sigUSR1, MainEvent.dispatch])
                      ++ (finiTrace subs).map MainEvent.finiCall))) := by
      simp [mainEvents]
    rw [hshape] at hsplit
    rcases List.append_eq_append_iff.mp hsplit.symm with ⟨a, ha1, ha2⟩ | ⟨a, ha1, ha2⟩
    · -- dispatch would have to sit inside the addSection chunk: impossible
      cases a with
      | nil => simp at ha2
      | cons hd tl =>
          rw [List.cons_append] at ha2
          injection ha2 with h1 h2
          have hmem : MainEvent.dispatch ∈ (confTrace subs).map MainEvent.addSection := by
            rw [ha1, h1]
            exact List.mem_append_right _ (List.mem_cons_self _ _)
          simp at hmem
    · -- the sigpipeIgnored step lands inside l1
      cases a with
      | nil => simp at ha2
      | cons hd tl =>
          rw [List.cons_append] at ha2
          injection ha2 with h1 h2
          rw [ha1, ← h1]
          exact List.mem_append_right _ (List.mem_cons_self _ _)
  · intro p hp hne
    have : (fun q : Nat × Session =>
        if q.1 = sid then (q.1, { q.2 with state := SessState.failed, err := some e }) else q) p
        = p := by
      simp [hne]
    rw [failSession]
    exact this ▸ List.mem_map_of_mem _ hp
  · intro p hp hpsid
    rw [failSession] at hp
    obtain ⟨q, hq, hfq⟩ := List.mem_map.mp hp
    by_cases hqs : q.1 = sid
    · rw [if_pos hqs] at hfq
      rw [← hfq]
      exact ⟨rfl, rfl⟩
    · rw [if_neg hqs] at hfq
      rw [← hfq] at hpsid
      exact absurd hpsid hqs

/-- Witness for C8: the empty subsystem table dispatches, and its trace
decomposition puts the SIGPIPE step before `dispatch`; failing session 1
of a two-session reactor leaves session 2 and the loop intact. -/
theorem session_errors_process_safe_witness :
    MainEvent.sigpipeIgnored ∈
        [MainEvent.sigpipeIgnored, MainEvent.registerSignal sigTERM,
         MainEvent.registerSignal sigINT, MainEvent.registerSignal sigUSR1]
    ∧ (failSession { sessions := [(1, initSession), (2, initSession)], alive := true }
          1 SessError.relayIOError).alive = true
    ∧ (2, initSession) ∈ (failSession
          { sessions := [(1, initSession), (2, initSession)], alive := true }
          1 SessError.relayIOError).sessions := by
  have h := session_errors_process_safe []
    { sessions := [(1, initSession), (2, initSession)], alive := true } 1
    SessError.relayIOError
  refine ⟨?_, h.2.2.1, ?_⟩
  · refine h.2.1
      [MainEvent.sigpipeIgnored, MainEvent.registerSignal sigTERM,
       MainEvent.registerSignal sigINT, MainEvent.registerSignal sigUSR1] [] ?_
    simp [mainEvents, confTrace, initTrace, initFailure, finiTrace, shutdownCursor,
      scanTableFrom, initLoopFrom, finiLoopDown]
  · refine h.2.2.2.2.1 (2, initSession) ?_ (by decide)
    simp

/-! ## Lemmas about the relay-session state machine -/

theorem sessStep_failed (cfg : SessConfig) (s : Session) (e : SessEvent)
    (h : s.state = SessState.failed) : sessStep cfg s e = (s, []) := by
  cases e <;> simp [sessStep, h, isActive]

theorem sessStates_failed (cfg : SessConfig) :
    ∀ (es : List SessEvent) (s : Session), s.state = SessState.failed →
      SessState.relaying ∉ sessStates cfg s es := by
  intro es
  induction es with
  | nil => intro s h; simp [sessStates, h]
  | cons e es ih =>
      intro s h
      simp only [sessStates, List.mem_cons]
      rintro (hc | hc)
      · rw [h] at hc; cases hc
      · rw [sessStep_failed cfg s e h] at hc
        exact ih s h hc

theorem sessStep_inv (cfg : SessConfig) (s : Session) (e : SessEvent)
    (h : SessInv s) : SessInv (sessStep cfg s e).1 := by
  rcases h with h0 | ⟨h1, h2, h3, h4⟩
  · -- no fallback yet: the only step that creates one is the
    -- connect failure under `direct`, which establishes the right branch
    cases e <;> simp only [sessStep] <;> split_ifs <;>
      first
        | exact Or.inl h0
        | (refine Or.inr ⟨?_, rfl, ?_, ?_⟩ <;> simp_all)
  · -- exactly one fallback: policy pinned to proxied, early states left behind
    cases e <;> simp only [sessStep] <;> split_ifs <;>
      first
        | exact Or.inr ⟨h1, h2, h3, h4⟩
        | (refine absurd ?_ h3; assumption)
        | (refine absurd ?_ h4; assumption)
        | (refine Or.inr ⟨h1, h2, ?_, ?_⟩ <;> simp)
        | simp_all

theorem runSession_inv (cfg : SessConfig) :
    ∀ (es : List SessEvent) (s : Session), SessInv s → SessInv (runSession cfg s es) := by
  intro es
  induction es with
  | nil => intro s h; exact h
  | cons e es ih =>
      intro s h
      exact ih _ (sessStep_inv cfg s e h)

/-! ## C1: one-shot direct→proxied fallback -/

/-- Claim C1: with no unexpired cache entry the lookup says `direct`, so
the session's first upstream connect attempt is direct; a connect failure
while `direct` records a cache failure and retries once with policy forced
to `proxied`, staying in `CONNECTING_UPSTREAM`; a connect failure while
already `proxied` fails the session with `UpstreamUnreachable` and emits
no further fallback; and no run of a fresh session ever performs more than
one fallback. -/
theorem session_single_fallback (cfg : SessConfig) :
    (∀ d now, cacheLookup [] d now = Policy.direct)
    ∧ (∀ d now,
        (runSession cfg initSession
          [SessEvent.resolvedOk, SessEvent.policyResult (cacheLookup [] d now)]).state
            = SessState.connectingUpstream
        ∧ (runSession cfg initSession
            [SessEvent.resolvedOk, SessEvent.policyResult (cacheLookup [] d now)]).policy
              = Policy.direct)
    ∧ (∀ s : Session, s.state = SessState.connectingUpstream → s.policy = Policy.direct →
        sessStep cfg s SessEvent.connectFail
          = ({ s with policy := Policy.proxied, fallbacks := s.fallbacks + 1 },
             [CacheAction.record Policy.direct false]))
    ∧ (∀ s : Session, s.state = SessState.connectingUpstream → s.policy = Policy.proxied →
        sessStep cfg s SessEvent.connectFail
          = ({ s with state := SessState.failed,
                      err := some SessError.upstreamUnreachable }, []))
    ∧ (∀ es : List SessEvent, (runSession cfg initSession es).fallbacks ≤ 1)
  := by
  refine ⟨fun d now => rfl, fun d now => ⟨rfl, rfl⟩, ?_, ?_, ?_⟩
  · intro s hs hp
    simp [sessStep, hs, hp]
  · intro s hs hp
    simp [sessStep, hs, hp]
  · intro es
    have h := runSession_inv cfg es initSession (Or.inl rfl)
    rcases h with h0 | ⟨h1, _, _, _⟩
    · omega
    · omega

/-- Witness for C1: a session that resolves, looks up an empty cache,
and suffers two connect failures falls back exactly once. -/
theorem session_single_fallback_witness :
    (sessStep { idleTimeout := 100 }
        { state := SessState.connectingUpstream, policy := Policy.direct,
          fallbacks := 0, err := none, lastActivity := 0 }
        SessEvent.connectFail).1.policy = Policy.proxied
    ∧ (runSession { idleTimeout := 100 } initSession
        [SessEvent.resolvedOk, SessEvent.policyResult (cacheLookup [] 7 0),
         SessEvent.connectFail, SessEvent.connectFail]).fallbacks ≤ 1 := by
  constructor
  · rw [(session_single_fallback { idleTimeout := 100 }).2.2.1
      { state := SessState.connectingUpstream, policy := Policy.direct,
        fallbacks := 0, err := none, lastActivity := 0 } rfl rfl]
  · exact (session_single_fallback { idleTimeout := 100 }).2.2.2.2 _

/-! ## C5: SOCKS5 bad version byte fails the session before RELAYING -/

/-- Claim C5: a SOCKS5 negotiation response whose version byte differs
from 0x05 makes the negotiator yield `ProtocolError`; fed back to a
session in `NEGOTIATING`, the `ProtocolError` outcome sends it to the
terminal `FAILED` state with `ProtocolError` recorded, and no
continuation of that session ever reaches `RELAYING`. -/
theorem socks5_bad_version_fails (cfg : SessConfig) (st : Socks5Nego) (v : Nat)
    (rest : List Nat) (s : Session) (es : List SessEvent)
    (hbuf : st.buf = []) (hv : v ≠ 5) (hs : s.state = SessState.negotiating) :
    (socks5OnBytes st (v :: rest)).2 = NegoResult.protoError
    ∧ (sessStep cfg s (SessEvent.negoFail true)).1.state = SessState.failed
    ∧ (sessStep cfg s (SessEvent.negoFail true)).1.err = some SessError.protocolError
    ∧ SessState.relaying ∉ sessStates cfg (sessStep cfg s (SessEvent.negoFail true)).1 es
  := by
  have hstep : (sessStep cfg s (SessEvent.negoFail true)).1
      = { s with state := SessState.failed, err := some SessError.protocolError } := by
    simp [sessStep, hs]
  refine ⟨?_, by rw [hstep], by rw [hstep], ?_⟩
  · simp [socks5OnBytes, hbuf, hv]
  · rw [hstep]
    exact sessStates_failed cfg es _ rfl

/-- Witness for C5: version byte 4 in the method reply yields
`ProtocolError` and the session fails without relaying. -/
theorem socks5_bad_version_fails_witness :
    (socks5OnBytes socks5Start [4, 0]).2 = NegoResult.protoError
    ∧ (sessStep { idleTimeout := 100 }
        { state := SessState.negotiating, policy := Policy.proxied,
          fallbacks := 0, err := none, lastActivity := 0 }
        (SessEvent.negoFail true)).1.state = SessState.failed
    ∧ SessState.relaying ∉ sessStates { idleTimeout := 100 }
        (sessStep { idleTimeout := 100 }
          { state := SessState.negotiating, policy := Policy.proxied,
            fallbacks := 0, err := none, lastActivity := 0 }
          (SessEvent.negoFail true)).1
        [SessEvent.connectOk, SessEvent.negoOk] := by
  have h := socks5_bad_version_fails { idleTimeout := 100 } socks5Start 4 [0]
    { state := SessState.negotiating, policy := Policy.proxied,
      fallbacks := 0, err := none, lastActivity := 0 }
    [SessEvent.connectOk, SessEvent.negoOk] rfl (by decide) rfl
  exact ⟨h.1, h.2.1, h.2.2.2⟩

/-! ## C6: idle timeout -/

/-- Claim C6: any byte transferred during `RELAYING` resets the idle
timestamp; when the configured idle duration has elapsed since the last
byte, the timer event forces `CLOSING` from any active state — `RELAYING`
among them — signalling `SessionTimeout`; and delivering that timer event
through the reactor touches only the one session: the loop stays alive
and every other session is untouched. -/
theorem idle_timeout_forces_closing (cfg : SessConfig) (s : Session) (t : Nat)
    (r : Reactor) (sid : Nat) :
    (s.state = SessState.relaying →
       (sessStep cfg s (SessEvent.bytesMoved t)).1.lastActivity = t
       ∧ (sessStep cfg s (SessEvent.bytesMoved t)).1.state = SessState.relaying)
    ∧ (isActive s.state = true → cfg.idleTimeout ≤ t - s.lastActivity →
       (sessStep cfg s (SessEvent.timerFire t)).1.state = SessState.closing
       ∧ (sessStep cfg s (SessEvent.timerFire t)).1.err = some SessError.sessionTimeout)
    ∧ isActive SessState.relaying = true
    ∧ (reactorStep cfg r sid (SessEvent.timerFire t)).alive = r.alive
    ∧ (∀ p ∈ r.sessions, p.1 ≠ sid →
        p ∈ (reactorStep cfg r sid (SessEvent.timerFire t)).sessions)
  := by
  refine ⟨?_, ?_, rfl, rfl, ?_⟩
  · intro hs
    constructor <;> simp [sessStep, hs]
  · intro hact hidle
    constructor <;> simp [sessStep, hact, hidle]
  · intro p hp hne
    have : (fun q : Nat × Session =>
        if q.1 = sid then (q.1, (sessStep cfg q.2 (SessEvent.timerFire t)).1) else q) p
        = p := by
      simp [hne]
    rw [reactorStep]
    exact this ▸ List.mem_map_of_mem _ hp

/-- Witness for C6: a session idle in `RELAYING` since time 0 is closed
with `SessionTimeout` by a timer firing at time 100 under a 100-tick
idle budget, and the sibling session of the reactor survives. -/
theorem idle_timeout_forces_closing_witness :
    (sessStep { idleTimeout := 100 }
        { state := SessState.relaying, policy := Policy.direct,
          fallbacks := 0, err := none, lastActivity := 0 }
        (SessEvent.timerFire 100)).1.state = SessState.closing
    ∧ (sessStep { idleTimeout := 100 }
        { state := SessState.relaying, policy := Policy.direct,
          fallbacks := 0, err := none, lastActivity := 0 }
        (SessEvent.timerFire 100)).1.err = some SessError.sessionTimeout
    ∧ (2, initSession) ∈ (reactorStep { idleTimeout := 100 }
        { sessions := [(1, initSession), (2, initSession)], alive := true }
        1 (SessEvent.timerFire 100)).sessions := by
  have h := idle_timeout_forces_closing { idleTimeout := 100 }
    { state := SessState.relaying, policy := Policy.direct,
      fallbacks := 0, err := none, lastActivity := 0 } 100
    { sessions := [(1, initSession), (2, initSession)], alive := true } 1
  have h2 := h.2.1 rfl (by decide)
  refine ⟨h2.1, h2.2, ?_⟩
  refine h.2.2.2.2 (2, initSession) (by simp) (by decide)

/-! ## Lemmas about the decision cache -/

theorem lookupEntry_setEntry_self (c : Cache) (d : Nat) (e : CacheEntry) :
    lookupEntry (setEntry c d e) d = some e := by
  simp [lookupEntry, setEntry, List.find?]

/-! ## C2: failure threshold flips the cached policy -/

/-- Claim C2: for a destination with a cached entry, a
`record_outcome(D, direct, failure)` within the sliding window increments
the failure counter as long as the threshold is not crossed; the call that
makes the counter reach the threshold flips the stored policy to `proxied`
with expiry one proxied-confirm TTL away, after which `lookup` answers
`proxied` until the TTL elapses and `direct` (re-probing) from then on;
and `record_outcome(D, direct, success)` resets the counter and reconfirms
`direct` with its own TTL. -/
theorem cache_threshold_flip (cfg : CacheConfig) (c : Cache) (d now : Nat)
    (e : CacheEntry) (he : lookupEntry c d = some e)
    (hw : now ≤ e.windowStart + cfg.window) :
    (e.failCount + 1 < cfg.threshold →
       lookupEntry (recordOutcome cfg c d Policy.direct false now) d
         = some { e with failCount := e.failCount + 1, stamp := now })
    ∧ (cfg.threshold ≤ e.failCount + 1 →
       lookupEntry (recordOutcome cfg c d Policy.direct false now) d
         = some { policy := Policy.proxied, failCount := 0,
                  windowStart := e.windowStart, stamp := now,
                  expiry := now + cfg.proxiedTTL }
       ∧ (∀ t, cacheLookup (recordOutcome cfg c d Policy.direct false now) d t
            = if t < now + cfg.proxiedTTL then Policy.proxied else Policy.direct))
    ∧ lookupEntry (recordOutcome cfg c d Policy.direct true now) d
        = some { policy := Policy.direct, failCount := 0, windowStart := now,
                 stamp := now, expiry := now + cfg.directTTL }
  := by
  have hin : (decide (now ≤ e.windowStart + cfg.window)) = true := decide_eq_true hw
  refine ⟨?_, ?_, ?_⟩
  · intro hlt
    have hnot : ¬ cfg.threshold ≤ e.failCount + 1 := by omega
    simp only [recordOutcome, Bool.false_eq_true, if_neg, he, Option.getD_some, hin,
      if_true, if_neg hnot]
    exact lookupEntry_setEntry_self _ _ _
  · intro hge
    have hl : lookupEntry (recordOutcome cfg c d Policy.direct false now) d
        = some { policy := Policy.proxied, failCount := 0,
                 windowStart := e.windowStart, stamp := now,
                 expiry := now + cfg.proxiedTTL } := by
      simp only [recordOutcome, Bool.false_eq_true, if_neg, he, Option.getD_some, hin,
        if_true, if_pos hge]
      exact lookupEntry_setEntry_self _ _ _
    refine ⟨hl, fun t => ?_⟩
    rw [cacheLookup, hl]
  · simp only [recordOutcome, if_pos]
    exact lookupEntry_setEntry_self _ _ _

/-- Witness for C2: with threshold 2, window 10 and proxied TTL 30, a
second failure at time 5 on destination 7 flips the entry to `proxied`;
lookups answer `proxied` at time 20 and `direct` again at time 35. -/
theorem cache_threshold_flip_witness :
    lookupEntry
        (recordOutcome { threshold := 2, window := 10, directTTL := 50, proxiedTTL := 30 }
          [(7, { policy := Policy.direct, failCount := 1, windowStart := 0,
                 stamp := 0, expiry := 100 })]
          7 Policy.direct false 5) 7
      = some { policy := Policy.proxied, failCount := 0, windowStart := 0,
               stamp := 5, expiry := 35 }
    ∧ cacheLookup
        (recordOutcome { threshold := 2, window := 10, directTTL := 50, proxiedTTL := 30 }
          [(7, { policy := Policy.direct, failCount := 1, windowStart := 0,
                 stamp := 0, expiry := 100 })]
          7 Policy.direct false 5) 7 20
      = Policy.proxied
    ∧ cacheLookup
        (recordOutcome { threshold := 2, window := 10, directTTL := 50, proxiedTTL := 30 }
          [(7, { policy := Policy.direct, failCount := 1, windowStart := 0,
                 stamp := 0, expiry := 100 })]
          7 Policy.direct false 5) 7 35
      = Policy.direct := by
  have h := (cache_threshold_flip
    { threshold := 2, window := 10, directTTL := 50, proxiedTTL := 30 }
    [(7, { policy := Policy.direct, failCount := 1, windowStart := 0,
           stamp := 0, expiry := 100 })]
    7 5 { policy := Policy.direct, failCount := 1, windowStart := 0,
          stamp := 0, expiry := 100 }
    rfl (by decide)).2.1 (by decide)
  refine ⟨h.1, ?_, ?_⟩
  · rw [h.2 20]; decide
  · rw [h.2 35]; decide

/-! ## Lemmas about the byte relay pump -/

theorem flowStep_conserve (cfg : FlowConfig) (f : Flow) (e : FlowEvent) :
    (flowStep cfg f e).delivered ++ (flowStep cfg f e).buf ++ (flowStep cfg f e).src
      = f.delivered ++ f.buf ++ f.src := by
  cases e with
  | readable n =>
      by_cases hr : f.readOn
      · simp [flowStep, hr, List.append_assoc, List.take_append_drop]
      · simp [flowStep, hr]
  | writable n =>
      simp [flowStep, List.append_assoc, List.take_append_drop]

theorem flowStep_inv (cfg : FlowConfig) (f : Flow) (e : FlowEvent)
    (hcap : cfg.lowWatermark < cfg.capacity)
    (h : f.readOn = true → f.buf.length < cfg.capacity) :
    (flowStep cfg f e).readOn = true → (flowStep cfg f e).buf.length < cfg.capacity := by
  cases e with
  | readable n =>
      by_cases hr : f.readOn
      · intro hon
        simp only [flowStep, hr, if_true] at hon ⊢
        exact of_decide_eq_true hon
      · intro hon
        simp only [flowStep, hr, Bool.false_eq_true, if_neg] at hon ⊢
        exact h hon
  | writable n =>
      intro hon
      simp only [flowStep, Bool.or_eq_true, decide_eq_true_eq] at hon ⊢
      rcases hon with hon | hon
      · have hlt := h hon
        have : (f.buf.drop (min n f.buf.length)).length ≤ f.buf.length :=
          by simp [List.length_drop]
        omega
      · omega

theorem runFlow_conserve (cfg : FlowConfig) :
    ∀ (es : List FlowEvent) (f : Flow),
      (runFlow cfg f es).delivered ++ (runFlow cfg f es).buf ++ (runFlow cfg f es).src
        = f.delivered ++ f.buf ++ f.src := by
  intro es
  induction es with
  | nil => intro f; rfl
  | cons e es ih =>
      intro f
      rw [runFlow, ih (flowStep cfg f e), flowStep_conserve]

theorem runFlow_inv (cfg : FlowConfig) (hcap : cfg.lowWatermark < cfg.capacity) :
    ∀ (es : List FlowEvent) (f : Flow),
      (f.readOn = true → f.buf.length < cfg.capacity) →
      (runFlow cfg f es).readOn = true → (runFlow cfg f es).buf.length < cfg.capacity := by
  intro es
  induction es with
  | nil => intro f h; exact h
  | cons e es ih =>
      intro f h
      exact ih (flowStep cfg f e) (flowStep_inv cfg f e hcap h)

theorem runPump_conserve (cfg : FlowConfig) :
    ∀ (es : List PumpEvent) (p : Pump),
      ((runPump cfg p es).c2u.delivered ++ (runPump cfg p es).c2u.buf
          ++ (runPump cfg p es).c2u.src
        = p.c2u.delivered ++ p.c2u.buf ++ p.c2u.src)
      ∧ ((runPump cfg p es).u2c.delivered ++ (runPump cfg p es).u2c.buf
          ++ (runPump cfg p es).u2c.src
        = p.u2c.delivered ++ p.u2c.buf ++ p.u2c.src) := by
  intro es
  induction es with
  | nil => intro p; exact ⟨rfl, rfl⟩
  | cons e es ih =>
      intro p
      cases e with
      | onC2U e =>
          refine ⟨?_, ?_⟩
          · rw [runPump, (ih _).1]
            exact flowStep_conserve cfg p.c2u e
          · rw [runPump, (ih _).2]
            simp [pumpStep]
      | onU2C e =>
          refine ⟨?_, ?_⟩
          · rw [runPump, (ih _).1]
            simp [pumpStep]
          · rw [runPump, (ih _).2]
            exact flowStep_conserve cfg p.u2c e

/-! ## C3: round-trip fidelity of the relay -/

/-- Claim C3: for any interleaving of readiness events, the bytes a pump
direction has delivered, still buffers, and has not yet read concatenate
back to exactly the byte sequence its source sends — so delivered bytes
are always a prefix of the sent sequence, in order, with no reordering
and no duplication, and once a direction's source and buffer are empty the
destination has received exactly the sent sequence; the two directions are
independent and the claim holds per direction symmetrically. -/
theorem relay_fidelity (cfg : FlowConfig) (a b : List Nat) (es : List PumpEvent)
    (p : Pump) (fe : FlowEvent) :
    ((runPump cfg (initPump a b) es).c2u.delivered
        ++ (runPump cfg (initPump a b) es).c2u.buf
        ++ (runPump cfg (initPump a b) es).c2u.src = a)
    ∧ ((runPump cfg (initPump a b) es).u2c.delivered
        ++ (runPump cfg (initPump a b) es).u2c.buf
        ++ (runPump cfg (initPump a b) es).u2c.src = b)
    ∧ (∃ r1, (runPump cfg (initPump a b) es).c2u.delivered ++ r1 = a)
    ∧ (∃ r2, (runPump cfg (initPump a b) es).u2c.delivered ++ r2 = b)
    ∧ ((runPump cfg (initPump a b) es).c2u.src = [] →
       (runPump cfg (initPump a b) es).c2u.buf = [] →
       (runPump cfg (initPump a b) es).c2u.delivered = a)
    ∧ (pumpStep cfg p (PumpEvent.onC2U fe)).u2c = p.u2c
    ∧ (pumpStep cfg p (PumpEvent.onU2C fe)).c2u = p.c2u
  := by
  have hc : (runPump cfg (initPump a b) es).c2u.delivered
      ++ (runPump cfg (initPump a b) es).c2u.buf
      ++ (runPump cfg (initPump a b) es).c2u.src = a :=
    (runPump_conserve cfg es (initPump a b)).1
  have hu : (runPump cfg (initPump a b) es).u2c.delivered
      ++ (runPump cfg (initPump a b) es).u2c.buf
      ++ (runPump cfg (initPump a b) es).u2c.src = b :=
    (runPump_conserve cfg es (initPump a b)).2
  refine ⟨hc, hu, ?_, ?_, ?_, rfl, rfl⟩
  · refine ⟨(runPump cfg (initPump a b) es).c2u.buf
      ++ (runPump cfg (initPump a b) es).c2u.src, ?_⟩
    rw [← List.append_assoc]
    exact hc
  · refine ⟨(runPump cfg (initPump a b) es).u2c.buf
      ++ (runPump cfg (initPump a b) es).u2c.src, ?_⟩
    rw [← List.append_assoc]
    exact hu
  · intro hsrc hbuf
    rw [hsrc, hbuf] at hc
    simpa using hc

/-- Witness for C3: client bytes `[1, 2]` read then written arrive intact
at upstream. -/
theorem relay_fidelity_witness :
    (runPump { capacity := 4, lowWatermark := 1 } (initPump [1, 2] [3])
        [PumpEvent.onC2U (FlowEvent.readable 10),
         PumpEvent.onC2U (FlowEvent.writable 10)]).c2u.src = []
    ∧ (runPump { capacity := 4, lowWatermark := 1 } (initPump [1, 2] [3])
        [PumpEvent.onC2U (FlowEvent.readable 10),
         PumpEvent.onC2U (FlowEvent.writable 10)]).c2u.delivered = [1, 2] := by
  refine ⟨by decide, ?_⟩
  exact (relay_fidelity { capacity := 4, lowWatermark := 1 } [1, 2] [3]
    [PumpEvent.onC2U (FlowEvent.readable 10), PumpEvent.onC2U (FlowEvent.writable 10)]
    (initPump [] []) (FlowEvent.readable 0)).2.2.2.2.1 (by decide) (by decide)

/-! ## C4: backpressure -/

/-- Claim C4: starting from a flow whose buffer respects the bound, every
run keeps the invariant that reading is enabled only while the buffer is
below capacity — equivalently a full buffer means reading is suspended;
a suspended side consumes nothing from its source on a readable event (no
byte is dropped while the buffer is full); reading resumes only once a
write has drained the buffer below the low watermark; and the conservation
of bytes holds across every run. -/
theorem backpressure_invariant (cfg : FlowConfig) (f g : Flow)
    (es : List FlowEvent) (n : Nat)
    (hcap : cfg.lowWatermark < cfg.capacity)
    (hinv : f.readOn = true → f.buf.length < cfg.capacity) :
    ((runFlow cfg f es).readOn = true → (runFlow cfg f es).buf.length < cfg.capacity)
    ∧ ((runFlow cfg f es).buf.length = cfg.capacity → (runFlow cfg f es).readOn = false)
    ∧ (g.readOn = false → flowStep cfg g (FlowEvent.readable n) = g)
    ∧ (g.readOn = false → (flowStep cfg g (FlowEvent.writable n)).readOn = true →
       (flowStep cfg g (FlowEvent.writable n)).buf.length < cfg.lowWatermark)
    ∧ ((runFlow cfg f es).delivered ++ (runFlow cfg f es).buf ++ (runFlow cfg f es).src
        = f.delivered ++ f.buf ++ f.src)
  := by
  have hrun := runFlow_inv cfg hcap es f hinv
  refine ⟨hrun, ?_, ?_, ?_, runFlow_conserve cfg es f⟩
  · intro hfull
    cases hon : (runFlow cfg f es).readOn with
    | false => rfl
    | true => exact absurd hfull (by have := hrun hon; omega)
  · intro hoff
    simp [flowStep, hoff]
  · intro hoff hon
    simp only [flowStep, hoff, Bool.false_or, decide_eq_true_eq] at hon ⊢
    exact hon

/-- Witness for C4: a two-byte buffer filled by a read is suspended; one
byte written drains it below the low watermark of 1 only if it empties,
and conservation holds on the run. -/
theorem backpressure_invariant_witness :
    ((runFlow { capacity := 2, lowWatermark := 1 }
        { src := [1, 2, 3], buf := [], delivered := [], readOn := true }
        [FlowEvent.readable 5, FlowEvent.writable 1]).buf.length = 2 →
      (runFlow { capacity := 2, lowWatermark := 1 }
        { src := [1, 2, 3], buf := [], delivered := [], readOn := true }
        [FlowEvent.readable 5, FlowEvent.writable 1]).readOn = false)
    ∧ flowStep { capacity := 2, lowWatermark := 1 }
        { src := [9], buf := [4, 5], delivered := [], readOn := false }
        (FlowEvent.readable 3)
      = { src := [9], buf := [4, 5], delivered := [], readOn := false } := by
  have h := backpressure_invariant { capacity := 2, lowWatermark := 1 }
    { src := [1, 2, 3], buf := [], delivered := [], readOn := true }
    { src := [9], buf := [4, 5], delivered := [], readOn := false }
    [FlowEvent.readable 5, FlowEvent.writable 1] 3
    (by decide) (fun _ => by decide)
  exact ⟨h.2.1, h.2.2.1 rfl⟩

end Redsocks
